import Mathlib

/-
Verification of the cachetory memory cache backend and its protocol-level
default methods, shallowly embedded from the Python sources.

Modelling conventions:
* `datetime` instants and `timedelta` durations are integers (`Int`);
  `datetime.now(timezone.utc)` is passed in as an explicit `now` argument.
* The entry mapping `Dict[str, _Entry]` is a function `String → Option (Entry V)`.
* A raised `KeyError` is the `none` branch of an `Option` result; methods that
  mutate `self._entries` return the new mapping explicitly.
-/

namespace Cachetory

/-- Embeds `_Entry` from `cachetory/backends/memory.py`: a cached value together
with an optional expiration deadline. -/
structure Entry (V : Type) where
  value : V
  deadline : Option Int
  deriving DecidableEq

/-- The entry mapping `self._entries : Dict[str, _Entry[TV]]`. -/
abbrev Mem (V : Type) := String → Option (Entry V)

/-- The empty mapping, as built by `MemoryBackend.__init__`. -/
def emptyMem (V : Type) : Mem V := fun _ => none

/-- Embeds `self._entries.pop(key, ...)`: remove `key` from the mapping. -/
def popKey (m : Mem V) (key : String) : Mem V :=
  fun k => if k = key then none else m k

/-- Embeds `self._entries[key] = entry`: store `entry` under `key`. -/
def insertKey (m : Mem V) (key : String) (entry : Entry V) : Mem V :=
  fun k => if k = key then some entry else m k

namespace MemoryBackend

/-- Embeds `MemoryBackend._get_entry`. The source reads the entry (a missing key
raises `KeyError`, modelled as `none` with the mapping unchanged); then, if
`entry.deadline is not None and entry.deadline > datetime.now(timezone.utc)`,
it pops the key and raises `KeyError` — modelled as `none` together with the
popped mapping.  Otherwise the entry is returned with the mapping unchanged. -/
def getEntry (now : Int) (m : Mem V) (key : String) : Option (Entry V) × Mem V :=
  match m key with
  | none => (none, m)
  | some entry =>
      match entry.deadline with
      | none => (some entry, m)
      | some d => if now < d then (none, popKey m key) else (some entry, m)

/-- Embeds `MemoryBackend.__getitem__`: `self._get_entry(key).value`. -/
def getItem (now : Int) (m : Mem V) (key : String) : Option V × Mem V :=
  match getEntry now m key with
  | (none, m1) => (none, m1)
  | (some entry, m1) => (some entry.value, m1)

/-- Embeds `MemoryBackend.expire_at`: `_get_entry(key)` inside `try`; on
`KeyError` it passes (keeping whatever pop `_get_entry` performed), otherwise it
assigns `entry.deadline = deadline` in place. -/
def expire_at (now : Int) (m : Mem V) (key : String) (deadline : Option Int) : Mem V :=
  match getEntry now m key with
  | (none, m1) => m1
  | (some entry, m1) => insertKey m1 key { entry with deadline := deadline }

/-- Embeds `MemoryBackend.set`: computes
`deadline = now + time_to_live if time_to_live is not None else None` and stores
a fresh entry under `key`. -/
def set (now : Int) (m : Mem V) (key : String) (value : V)
    (time_to_live : Option Int) : Mem V :=
  insertKey m key ⟨value, time_to_live.map (fun t => now + t)⟩

/-- Embeds `MemoryBackend.delete`:
`return self._entries.pop(key, _SENTINEL) is _SENTINEL`.  `pop` removes the key
when present (returning its entry) and returns the sentinel when absent, so the
method's Boolean result is `true` exactly when the key was absent. -/
def delete (m : Mem V) (key : String) : Bool × Mem V :=
  match m key with
  | none => (true, m)
  | some _ => (false, popKey m key)

end MemoryBackend

/-- Embeds the default `AsyncBackendRead.get_many` from
`cachetory/interfaces/backends/async_.py`: for each key in order it calls
`self.get(key)`, yields `(key, value)` on success and passes on `KeyError`.
The backend's `get` is the abstract parameter, with `KeyError` as `none`. -/
def get_many (get : String → Option V) : List String → List (String × V)
  | [] => []
  | key :: keys =>
      match get key with
      | none => get_many get keys
      | some value => (key, value) :: get_many get keys

/-- Embeds the default `AsyncBackendWrite.expire_in`: computes
`deadline = now + time_to_live if time_to_live is not None else None` and calls
`self.expire_at(key, deadline)`; `expire_at` is the abstract backend operation
acting on a backend state `S`. -/
def expire_in (expireAt : String → Option Int → S → S) (now : Int) (key : String)
    (time_to_live : Option Int) (s : S) : S :=
  expireAt key (time_to_live.map (fun t => now + t)) s

/-- Embeds the default `AsyncBackendWrite.set_many`: iterates the items in order
and calls `self.set(key, value)` with the defaults `time_to_live=None` and
`if_not_exists=False`; `set` is the abstract backend operation. -/
def set_many (set : S → String → V → Option Int → Bool → S)
    (items : List (String × V)) (s : S) : S :=
  items.foldl (fun s kv => set s kv.1 kv.2 none false) s

/-- Embeds `cached.wrap.cached_callable` from `cachetory/decorators/sync.py`:
computes `key_ = make_key(callable_, *args)`, tries `cache_[key_]` and returns
the hit; on `KeyError` it invokes the wrapped callable, stores the result with
the configured `time_to_live` and `if_not_exists`, and returns it.  The cache's
read and write operations are the abstract parameters `get` and `set` over the
cache state `S`; the wrapped function `callable_` is pure. -/
def cachedCallable (get : S → String → Option V)
    (set : S → String → V → Option Int → Bool → S)
    (make_key : A → String) (time_to_live : Option Int) (if_not_exists : Bool)
    (callable_ : A → V) (args : A) (s : S) : V × S :=
  match get s (make_key args) with
  | some value => (value, s)
  | none =>
      let value := callable_ args
      (value, set s (make_key args) value time_to_live if_not_exists)

/-- Liveness of an optional entry per the spec: an entry is live iff its
deadline is `None` or strictly after `now`. -/
def isLive (now : Int) : Option (Entry V) → Bool
  | none => false
  | some entry =>
      match entry.deadline with
      | none => true
      | some d => decide (now < d)

/-- Modelled from the spec: the backend implementation of `set` with the
`if_not_exists` option is not under `src/` (only the abstract protocol
declaration `AsyncBackendWrite.set` is).  Per the spec, if `if_not_exists` is
true and a live entry already exists for `key`, the operation does not
overwrite it and returns `false`; otherwise it writes an entry with
`deadline = now + time_to_live` (or none) and returns `true`. -/
def specSet (now : Int) (m : Mem V) (key : String) (value : V)
    (time_to_live : Option Int) (if_not_exists : Bool) : Bool × Mem V :=
  if if_not_exists && isLive now (m key) then (false, m)
  else (true, insertKey m key ⟨value, time_to_live.map (fun t => now + t)⟩)

/-- Spec-side description for `set_many`: the value of the last pair of the
list carrying the given key, if any (later pairs win over earlier ones). -/
def lastWins : List (String × V) → String → Option V
  | [], _ => none
  | kv :: rest, key =>
      match lastWins rest key with
      | some v => some v
      | none => if key = kv.1 then some kv.2 else none

/-- C1: evaluating the code at the failing inputs.  `set("k", 0, time_to_live=0)`
at time 0 followed by `get("k")` at time 0 returns the stored value `0` instead
of failing with `NotFound` as the claim requires for `ttl <= 0`; conversely, for
a live entry written with `time_to_live=10` (deadline strictly after `now`),
`get("k")` fails instead of returning the stored value.  The comparison in
`_get_entry` is inverted. -/
theorem c1_code_at_failing_input :
    (MemoryBackend.getItem 0
      (MemoryBackend.set 0 (emptyMem Nat) "k" 0 (some 0)) "k").1 = some 0
    ∧ (MemoryBackend.getItem 0
      (MemoryBackend.set 0 (emptyMem Nat) "k" 0 (some 10)) "k").1 = none := by
  constructor <;> rfl

/-- C2: evaluating the code at the failing inputs.  `delete("a")` on a mapping
holding `"a"` returns `false` although an entry was present beforehand, and
`delete("a")` on the empty mapping returns `true` although no entry was present
— the opposite of the claim.  The removal itself does happen (third conjunct). -/
theorem c2_code_at_failing_input :
    (MemoryBackend.delete (insertKey (emptyMem Nat) "a" ⟨1, none⟩) "a").1 = false
    ∧ (MemoryBackend.delete (emptyMem Nat) "a").1 = true
    ∧ (MemoryBackend.delete (insertKey (emptyMem Nat) "a" ⟨1, none⟩) "a").2 "a" = none := by
  refine ⟨rfl, rfl, rfl⟩

/-- C3: evaluating the code at the failing input.  On a mapping holding an
expired entry for `"k"` (deadline 0, now 5 — not live), `get("k")` returns the
stored value instead of raising `NotFound`, and leaves the stale entry in the
mapping instead of removing it as a side effect. -/
theorem c3_code_at_failing_input :
    (MemoryBackend.getItem 5 (insertKey (emptyMem Nat) "k" ⟨7, some 0⟩) "k").1 = some 7
    ∧ (MemoryBackend.getItem 5
        (insertKey (emptyMem Nat) "k" ⟨7, some 0⟩) "k").2 "k" = some ⟨7, some 0⟩ := by
  constructor <;> rfl

/-- C5: evaluating the code at the failing inputs.  On a live entry for `"k"`
(deadline 10, now 0), `expire_at("k", 20)` removes the entry from the mapping
instead of setting its deadline to 20; on an expired entry (deadline 0, now 5),
`expire_at("k", 20)` updates the deadline instead of being a no-op. -/
theorem c5_code_at_failing_input :
    (MemoryBackend.expire_at 0
      (insertKey (emptyMem Nat) "k" ⟨7, some 10⟩) "k" (some 20)) "k" = none
    ∧ (MemoryBackend.expire_at 5
      (insertKey (emptyMem Nat) "k" ⟨7, some 0⟩) "k" (some 20)) "k" = some ⟨7, some 20⟩ := by
  constructor <;> rfl

/-- C6: round-trip — for every mapping, key and value, `set(key, value)` with no
`time_to_live` followed immediately by `get(key)` returns `value`, whatever the
clock reads at either call. -/
theorem c6_round_trip (V : Type) (now1 now2 : Int) (m : Mem V) (key : String) (value : V) :
    (MemoryBackend.getItem now2 (MemoryBackend.set now1 m key value none) key).1
      = some value := by
  simp [MemoryBackend.getItem, MemoryBackend.getEntry, MemoryBackend.set, insertKey]

/-- C7: `get_many` yields exactly one `(key, value)` pair per key that resolves
via `get`, in the order the keys were given, silently skipping every key whose
`get` fails with `NotFound` — it equals `filterMap` of `get` over the keys. -/
theorem c7_get_many (V : Type) (get : String → Option V) (keys : List String) :
    get_many get keys
      = keys.filterMap (fun key => (get key).map (fun value => (key, value))) := by
  induction keys with
  | nil => rfl
  | cons k ks ih => cases h : get k <;> simp [get_many, h, ih]

/-- C8: `expire_in(key, ttl)` with `ttl` given behaves identically to
`expire_at(key, now + ttl)`, and `expire_in(key, None)` behaves identically to
`expire_at(key, None)`, for every backend `expire_at` operation and state. -/
theorem c8_expire_in (S : Type) (expireAt : String → Option Int → S → S)
    (now : Int) (key : String) (s : S) :
    (∀ ttl : Int, expire_in expireAt now key (some ttl) s
        = expireAt key (some (now + ttl)) s)
    ∧ expire_in expireAt now key none s = expireAt key none s :=
  ⟨fun _ => rfl, rfl⟩

/-- C4: against the spec-modelled `set`: after `set(key, v1)` (which stores a
permanent, hence live, entry), `set(key, v2, if_not_exists=True)` returns
`false` and leaves the mapping — in particular the stored value `v1` —
unchanged; when `key` is absent, or its entry's deadline has passed, the same
call writes `v2` and returns `true`. -/
theorem c4_if_not_exists (V : Type) (now1 now2 : Int) (m : Mem V) (key : String)
    (v1 v2 : V) (ttl : Option Int) :
    specSet now2 ((specSet now1 m key v1 none false).2) key v2 ttl true
      = (false, (specSet now1 m key v1 none false).2)
    ∧ (m key = none →
        specSet now2 m key v2 ttl true
          = (true, insertKey m key ⟨v2, ttl.map (fun t => now2 + t)⟩))
    ∧ (∀ v0 d, m key = some ⟨v0, some d⟩ → d ≤ now2 →
        specSet now2 m key v2 ttl true
          = (true, insertKey m key ⟨v2, ttl.map (fun t => now2 + t)⟩)) := by
  refine ⟨?_, ?_, ?_⟩
  · simp [specSet, isLive, insertKey]
  · intro h
    simp [specSet, isLive, h]
  · intro v0 d h hd
    have hlt : ¬ now2 < d := not_lt.mpr hd
    simp [specSet, isLive, h, hlt]

/-- C4 witness: the three scenarios at concrete inputs — a fresh write blocks a
guarded overwrite; a guarded write on the empty mapping succeeds; a guarded
write over an expired entry (deadline 0, now 1) succeeds. -/
theorem c4_if_not_exists_witness :
    specSet 0 ((specSet 0 (emptyMem Nat) "k" 1 none false).2) "k" 2 none true
      = (false, (specSet 0 (emptyMem Nat) "k" 1 none false).2)
    ∧ specSet 0 (emptyMem Nat) "k" 2 none true
        = (true, insertKey (emptyMem Nat) "k" ⟨2, none⟩)
    ∧ specSet 1 (insertKey (emptyMem Nat) "k" ⟨5, some 0⟩) "k" 2 none true
        = (true, insertKey (insertKey (emptyMem Nat) "k" ⟨5, some 0⟩) "k" ⟨2, none⟩) := by
  refine ⟨(c4_if_not_exists Nat 0 0 (emptyMem Nat) "k" 1 2 none).1, ?_, ?_⟩
  · exact (c4_if_not_exists Nat 0 0 (emptyMem Nat) "k" 1 2 none).2.1 rfl
  · exact (c4_if_not_exists Nat 0 1 (insertKey (emptyMem Nat) "k" ⟨5, some 0⟩)
      "k" 1 2 none).2.2 5 0 rfl (by decide)

/-- C9: the memoized wrapper first looks the computed key up in the cache and
returns the hit without touching the state or invoking the wrapped callable;
when and only when the lookup fails with `NotFound` does it invoke the
callable, store its result under that key with the configured `time_to_live`
and `if_not_exists` options, and return that result. -/
theorem c9_cached (S V A : Type) (get : S → String → Option V)
    (set : S → String → V → Option Int → Bool → S) (make_key : A → String)
    (time_to_live : Option Int) (if_not_exists : Bool) (callable_ : A → V)
    (args : A) (s : S) :
    (∀ value, get s (make_key args) = some value →
        cachedCallable get set make_key time_to_live if_not_exists callable_ args s
          = (value, s))
    ∧ (get s (make_key args) = none →
        cachedCallable get set make_key time_to_live if_not_exists callable_ args s
          = (callable_ args,
             set s (make_key args) (callable_ args) time_to_live if_not_exists)) := by
  constructor
  · intro value h
    simp [cachedCallable, h]
  · intro h
    simp [cachedCallable, h]

/-- C9 witness: at concrete inputs, a cache hit returns the cached value `7`
with the state untouched (the callable returning `99` is not consulted), and a
cache miss returns the computed `99` and stores it (the state becomes
`7 + 99 = 106`). -/
theorem c9_cached_witness :
    cachedCallable (fun (s : Nat) key => if key = "K" then some s else none)
        (fun s _ _ _ _ => s + 1) (fun _ : Unit => "K") none false
        (fun _ => 99) () 7 = (7, 7)
    ∧ cachedCallable (fun (_ : Nat) (_ : String) => (none : Option Nat))
        (fun s _ v _ _ => s + v) (fun _ : Unit => "K") none false
        (fun _ => 99) () 7 = (99, 106) := by
  constructor
  · exact (c9_cached Nat Nat Unit (fun s key => if key = "K" then some s else none)
      (fun s _ _ _ _ => s + 1) (fun _ : Unit => "K") none false
      (fun _ => 99) () 7).1 7 rfl
  · have h := (c9_cached Nat Nat Unit (fun _ _ => none) (fun s _ v _ _ => s + v)
      (fun _ : Unit => "K") none false (fun _ => 99) () 7).2 rfl
    simpa using h

lemma set_many_memory_lookup (V : Type) (now : Int) (items : List (String × V))
    (m : Mem V) (key : String) :
    set_many (fun s k v ttl _ => MemoryBackend.set now s k v ttl) items m key
      = match lastWins items key with
        | some v => some ⟨v, none⟩
        | none => m key := by
  induction items generalizing m with
  | nil => rfl
  | cons kv rest ih =>
      have step : set_many (fun s k v ttl _ => MemoryBackend.set now s k v ttl)
            (kv :: rest) m
          = set_many (fun s k v ttl _ => MemoryBackend.set now s k v ttl) rest
              (insertKey m kv.1 ⟨kv.2, none⟩) := rfl
      rw [step, ih]
      cases h : lastWins rest key with
      | some v => simp [lastWins, h]
      | none =>
          by_cases hk : key = kv.1
          · subst hk
            simp [lastWins, h, insertKey]
          · simp [lastWins, h, insertKey, hk]

/-- C10: `set_many(items)` is the sequential composition of `set(key, value)`
over the items in iteration order with the default options
(`time_to_live=None`, `if_not_exists=False`); instantiated with the memory
backend's `set`, every written entry has no deadline (never expires) and for
duplicate keys the last pair of the iterable wins, other keys being untouched. -/
theorem c10_set_many (S V : Type) (set : S → String → V → Option Int → Bool → S)
    (items : List (String × V)) (s : S) (now : Int) (m : Mem V) (key : String) :
    set_many set items s = items.foldl (fun s kv => set s kv.1 kv.2 none false) s
    ∧ set_many (fun s k v ttl _ => MemoryBackend.set now s k v ttl) items m key
        = match lastWins items key with
          | some v => some ⟨v, none⟩
          | none => m key :=
  ⟨rfl, set_many_memory_lookup V now items m key⟩

end Cachetory
